import Mathlib

/-!
Verification of the authorization decision engine in
src/modules/aaa/mod_authz.c (the Apache httpd authz module).

The C module is shallowly embedded. The linked list of
authz_provider_list nodes becomes a Lean List; pointers that may be
NULL become Option; a NULL-pointer dereference (a crash) is modelled
by the whole computation returning none. Provider check callbacks are
modelled as Lean functions stored in the authz_provider structure,
mirroring the check_authorization function pointer, which may itself
be NULL and is therefore an Option.
-/

namespace ModAuthz

/-- The tri-state verdict type authz_status declared in mod_auth.h and
consumed by mod_authz.c. -/
inductive authz_status : Type where
  | AUTHZ_DENIED
  | AUTHZ_GRANTED
  | AUTHZ_GENERAL_ERROR
  deriving DecidableEq, Repr

/-- The request_rec fields mod_authz.c touches: r->user, r->uri,
r->method_number, and the single r->notes slot keyed by
AUTHZ_PROVIDER_NAME_NOTE. The slot is modelled as an Option String,
none standing for an unset note (apr_table_unset). -/
structure request_rec where
  user : String
  uri : String
  method_number : Nat
  notes : Option String
  deriving DecidableEq, Repr

/-- The authz_provider capability record from mod_auth.h. The
check_authorization function pointer may be NULL, hence Option. -/
structure authz_provider where
  check_authorization : Option (request_rec → Nat → String → authz_status)

/-- The ap_provider registry: ap_lookup_provider is keyed by
(group, provider name, version). -/
abbrev Registry := String → String → String → Option authz_provider

def ap_lookup_provider (reg : Registry) (group name version : String) :
    Option authz_provider :=
  reg group name version

/-- AUTHZ_PROVIDER_GROUP from mod_auth.h; the concrete value is
immaterial to every claim. -/
def AUTHZ_PROVIDER_GROUP : String := "authz"

/-- AUTHZ_DEFAULT_PROVIDER from mod_auth.h; the concrete value is
immaterial to every claim. -/
def AUTHZ_DEFAULT_PROVIDER : String := "default"

/-- AP_METHOD_BIT from httpd.h: the unit bit of a method bitmask. -/
def AP_METHOD_BIT : Nat := 1

/-- One node of the authz_provider_list singly linked list (the next
pointer becomes the List structure of the embedding). The cached
provider pointer may be NULL until add_authz_provider validates it,
hence Option. -/
structure authz_provider_list where
  provider_name : String
  requirement : String
  method_mask : Nat
  provider : Option authz_provider

/-- authz_dir_conf: ap_requires is a possibly-NULL pointer whose
contents mod_authz.c never inspects (modelled as an Option over an
abstract handle), providers is the linked list of bindings. -/
structure authz_dir_conf where
  ap_requires : Option Nat
  providers : List authz_provider_list

/-- create_authz_dir_config: apr_pcalloc zeroes the struct, so both
fields start as NULL. -/
def create_authz_dir_config : authz_dir_conf :=
  ⟨none, []⟩

/-- merge_authz_dir_config (mod_authz.c lines 62-79): duplicate the
base by memcpy, then override ap_requires when the new config carries
one. The providers field always comes from the base via the memcpy;
it is never overridden. Note that authz_module (line 270) registers
NULL as its per-directory merger, so this function, while defined in
the source, is never installed. -/
def merge_authz_dir_config (basev newv : authz_dir_conf) : authz_dir_conf :=
  let conf := basev
  if newv.ap_requires.isSome then { conf with ap_requires := newv.ap_requires }
  else conf

/-- The per-directory merger slot of the authz_module record
(mod_authz.c line 270) is NULL: the hosting server therefore applies
its default per-directory merge, which is to use the new (child)
config unchanged, as the source comment says: "dir merger --- default
is to override". -/
def authz_module_dir_merger :
    Option (authz_dir_conf → authz_dir_conf → authz_dir_conf) :=
  none

def unknown_provider_msg (name : String) : String :=
  "Unknown Authz provider: " ++ name

def unsupported_provider_msg (name : String) : String :=
  "The " ++ name ++
    " Authz provider is not supported by any of the loaded authorization modules "

/-- add_authz_provider (mod_authz.c lines 81-128), the handler of the
Require directive. Note that the source stores the whole raw argument
both as the provider name and as the requirement; the comment at line
88 records the unfinished intent to split the first token off. The
method mask is cmd->limited (the enclosing Limit restriction). On
success the node is appended at the tail of the list (the tail-walk
at lines 119-124). -/
def add_authz_provider (reg : Registry) (limited : Nat)
    (conf : authz_dir_conf) (arg : String) : Except String authz_dir_conf :=
  let provider_name := arg
  let requirement := arg
  let method_mask := limited
  match ap_lookup_provider reg AUTHZ_PROVIDER_GROUP provider_name "0" with
  | none =>
      Except.error (unknown_provider_msg provider_name)
  | some p =>
      if p.check_authorization.isNone then
        Except.error (unsupported_provider_msg provider_name)
      else
        Except.ok { conf with
          providers :=
            conf.providers ++ [⟨provider_name, requirement, method_mask, some p⟩] }

/-- One observable provider invocation of the evaluation loop: the
provider name passed to apr_table_setn, the value of the notes slot
while check_authorization runs, and its value right after the
apr_table_unset that follows the call. -/
structure CallEvent where
  provider_name : String
  slotDuring : Option String
  slotAfter : Option String
  deriving DecidableEq, Repr

/-- State at exit of the do/while loop of authorize_user: the final
auth_result, the request (with its notes slot) as left by the loop,
and the chronological trace of provider invocations. -/
structure LoopResult where
  auth_result : authz_status
  r_final : request_rec
  calls : List CallEvent
  deriving DecidableEq, Repr

/-- The do/while loop of authorize_user (mod_authz.c lines 145-193).
The first argument of the list matches current_provider; the
providers_empty flag is the value of the test !conf->providers at line
188. When current_provider is NULL (the empty binding list) and the
default provider resolves with a usable check_authorization, the C
code evaluates current_provider->method_mask and
current_provider->requirement through the NULL pointer at lines
173-174 before the call can happen: that crash is modelled by none. A
NULL provider pointer or NULL check_authorization pointer in a list
node likewise crashes the call and is modelled by none. -/
def authz_loop (reg : Registry) (providers_empty : Bool) :
    request_rec → List authz_provider_list → Option LoopResult
  | r, [] =>
    match ap_lookup_provider reg AUTHZ_PROVIDER_GROUP AUTHZ_DEFAULT_PROVIDER "0" with
    | none => some ⟨authz_status.AUTHZ_GENERAL_ERROR, r, []⟩
    | some provider =>
      match provider.check_authorization with
      | none => some ⟨authz_status.AUTHZ_GENERAL_ERROR, r, []⟩
      | some _ => none
  | r, b :: rest =>
    match b.provider with
    | none => none
    | some p =>
      match p.check_authorization with
      | none => none
      | some check =>
        let r1 : request_rec := { r with notes := some b.provider_name }
        let v := check r1 b.method_mask b.requirement
        let r2 : request_rec := { r with notes := none }
        let ev : CallEvent := ⟨b.provider_name, r1.notes, r2.notes⟩
        if v ≠ authz_status.AUTHZ_DENIED then some ⟨v, r2, [ev]⟩
        else if providers_empty then some ⟨v, r2, [ev]⟩
        else
          match rest with
          | [] => some ⟨v, r2, [ev]⟩
          | b2 :: rest2 =>
            match authz_loop reg providers_empty r2 (b2 :: rest2) with
            | none => none
            | some lr => some ⟨lr.auth_result, lr.r_final, ev :: lr.calls⟩

/-- Apache return code OK. -/
def OK : Int := 0

/-- HTTP_UNAUTHORIZED (401). -/
def HTTP_UNAUTHORIZED : Int := 401

/-- HTTP_INTERNAL_SERVER_ERROR (500). -/
def HTTP_INTERNAL_SERVER_ERROR : Int := 500

/-- The request outcome of authorize_user: the returned code, whether
ap_note_basic_auth_failure was invoked (the challenge side effect),
the request state left behind, and the trace of provider
invocations. -/
structure AuthzOutcome where
  return_code : Int
  challenged : Bool
  r_final : request_rec
  calls : List CallEvent
  deriving DecidableEq, Repr

/-- The tail of authorize_user (mod_authz.c lines 195-222): map the
final auth_result to a return code, issuing the basic-auth challenge
exactly on HTTP_UNAUTHORIZED. The wildcard arm of the inner match
mirrors the default: label of the C switch. -/
def authz_decision (lr : LoopResult) : AuthzOutcome :=
  if lr.auth_result ≠ authz_status.AUTHZ_GRANTED then
    let return_code : Int :=
      match lr.auth_result with
      | authz_status.AUTHZ_DENIED => HTTP_UNAUTHORIZED
      | _ => HTTP_INTERNAL_SERVER_ERROR
    if return_code = HTTP_UNAUTHORIZED then
      ⟨return_code, true, lr.r_final, lr.calls⟩
    else
      ⟨return_code, false, lr.r_final, lr.calls⟩
  else
    ⟨OK, false, lr.r_final, lr.calls⟩

/-- authorize_user (mod_authz.c lines 138-223): run the loop over
conf->providers, then map the verdict to an outcome. none models the
crash described at authz_loop. -/
def authorize_user (reg : Registry) (conf : authz_dir_conf)
    (r : request_rec) : Option AuthzOutcome :=
  (authz_loop reg conf.providers.isEmpty r conf.providers).map authz_decision

/-- authz_ap_requires (mod_authz.c lines 225-233). -/
def authz_ap_requires (conf : authz_dir_conf) : Option Nat :=
  conf.ap_requires

/-- The while loop of authz_some_auth_required (mod_authz.c lines
242-253): scan for a binding whose method_mask has the bit of the
request method set. -/
def some_auth_loop (r : request_rec) : List authz_provider_list → Bool
  | [] => false
  | b :: rest =>
    if b.method_mask &&& (AP_METHOD_BIT <<< r.method_number) ≠ 0 then true
    else some_auth_loop r rest

/-- authz_some_auth_required (mod_authz.c lines 235-256). -/
def authz_some_auth_required (conf : authz_dir_conf) (r : request_rec) : Bool :=
  some_auth_loop r conf.providers

/-! Concrete fixtures used by witnesses and counterexamples. -/

/-- A provider whose check always grants. -/
def providerGrant : authz_provider :=
  ⟨some fun _ _ _ => authz_status.AUTHZ_GRANTED⟩

/-- A provider whose check always denies. -/
def providerDeny : authz_provider :=
  ⟨some fun _ _ _ => authz_status.AUTHZ_DENIED⟩

/-- A registry that resolves every lookup to the granting provider. -/
def regAll : Registry := fun _ _ _ => some providerGrant

/-- A registry with no providers at all. -/
def regNone : Registry := fun _ _ _ => none

/-- A sample request with an unset notes slot. -/
def r0 : request_rec := ⟨"alice", "/index.html", 0, none⟩

/-- A binding named Y, standing for a parent-scope entry. -/
def bY : authz_provider_list := ⟨"Y", "Y", 1, some providerGrant⟩

/-- A binding named X, standing for a child-scope entry. -/
def bX : authz_provider_list := ⟨"X", "X", 1, some providerGrant⟩

/-- Parent scope config holding exactly the binding Y. -/
def parentW : authz_dir_conf := ⟨none, [bY]⟩

/-- Child scope config holding exactly the binding X. -/
def childW : authz_dir_conf := ⟨none, [bX]⟩

/-! Claim theorems. -/

/-- Claim C2 (code_bug evidence): with an empty binding list and a
registry that resolves the default provider to a working, granting
check, authorize_user crashes (none) instead of producing the
Continue outcome: lines 173-174 read method_mask and requirement
through the NULL current_provider pointer. -/
theorem authorize_user_empty_default_crash :
    authorize_user regAll ⟨none, []⟩ r0 = none := rfl

/-- Claim C3 (code_bug evidence): the default provider resolves from
the registry and carries a usable check_authorization, yet the
evaluation loop on the empty binding list still reaches the none
branch at the invocation site — the binding node the arguments are
read from does not exist, so the claimed unreachability fails exactly
in the empty-list-with-default configuration. -/
theorem authz_loop_null_binding_reached :
    ap_lookup_provider regAll AUTHZ_PROVIDER_GROUP AUTHZ_DEFAULT_PROVIDER "0" =
        some providerGrant ∧
      providerGrant.check_authorization.isSome = true ∧
      authz_loop regAll true r0 [] = none :=
  ⟨rfl, rfl, rfl⟩

/-- Claim C4 (counterexample): a non-empty child list does not survive
the merge — merge_authz_dir_config keeps the parent's provider list,
so with parent = [Y] and child = [X] the merged list is [Y], not the
child's [X] that the claim promises. -/
theorem merge_keeps_parent_counterexample :
    (merge_authz_dir_config parentW childW).providers ≠ childW.providers := by
  intro h
  have hn := congrArg (List.map authz_provider_list.provider_name) h
  have hY : (merge_authz_dir_config parentW childW).providers.map
      authz_provider_list.provider_name = ["Y"] := rfl
  have hX : childW.providers.map authz_provider_list.provider_name = ["X"] := rfl
  rw [hY, hX] at hn
  exact absurd hn (by decide)

/-- Claim C4 (amended): merge_authz_dir_config always keeps the
parent's provider binding list, whatever the child holds, overriding
only the ap_requires field and only when the child's is non-NULL; and
the module registers no per-directory merger at all (NULL slot), so
the installed merge behavior is the host default of letting the child
config override wholesale. -/
theorem merge_authz_dir_config_spec (basev newv : authz_dir_conf) :
    (merge_authz_dir_config basev newv).providers = basev.providers ∧
      (merge_authz_dir_config basev newv).ap_requires =
        (if newv.ap_requires.isSome then newv.ap_requires else basev.ap_requires) ∧
      authz_module_dir_merger = none := by
  refine ⟨?_, ?_, rfl⟩ <;>
    · unfold merge_authz_dir_config
      by_cases hn : newv.ap_requires.isSome <;> simp [hn]

/-- Claim C5: the decision mapping is total and exact — Granted maps
to Continue (return code OK) with no challenge, Denied maps to
ChallengeAndDeny (HTTP_UNAUTHORIZED plus the basic-auth challenge),
Error maps to ServerError (HTTP_INTERNAL_SERVER_ERROR) with no
challenge, and the challenge is issued exactly when the final verdict
is Denied. The call trace is passed through untouched. -/
theorem authz_decision_total_spec (lr : LoopResult) :
    (authz_decision lr).return_code =
        (match lr.auth_result with
          | authz_status.AUTHZ_GRANTED => OK
          | authz_status.AUTHZ_DENIED => HTTP_UNAUTHORIZED
          | authz_status.AUTHZ_GENERAL_ERROR => HTTP_INTERNAL_SERVER_ERROR) ∧
      ((authz_decision lr).challenged = true ↔
        lr.auth_result = authz_status.AUTHZ_DENIED) ∧
      (authz_decision lr).calls = lr.calls := by
  rcases lr with ⟨v, rf, cs⟩
  cases v <;> refine ⟨rfl, ?_, rfl⟩ <;>
    simp [authz_decision, OK, HTTP_UNAUTHORIZED, HTTP_INTERNAL_SERVER_ERROR]

/-- Claim C8 (code_bug evidence): for the raw argument "group admins"
the built binding stores the entire argument both as the provider
name and as the requirement — the first token is never split off
(the comment at mod_authz.c line 88 records the unfinished intent). -/
theorem add_authz_provider_no_split :
    (add_authz_provider regAll 0 ⟨none, []⟩ "group admins").toOption.map
        (fun c => c.providers.map fun b => (b.provider_name, b.requirement)) =
      some [("group admins", "group admins")] := rfl

/-- Claim C6: with an empty binding list, when the default provider
does not resolve or lacks check_authorization, the loop exits with
AUTHZ_GENERAL_ERROR without invoking any provider (empty call trace,
request untouched), and authorize_user maps this to
HTTP_INTERNAL_SERVER_ERROR with no challenge. -/
theorem authorize_user_no_default_error (reg : Registry) (conf : authz_dir_conf)
    (r : request_rec) (hempty : conf.providers = [])
    (hdef : ap_lookup_provider reg AUTHZ_PROVIDER_GROUP AUTHZ_DEFAULT_PROVIDER "0" = none ∨
      ∃ p, ap_lookup_provider reg AUTHZ_PROVIDER_GROUP AUTHZ_DEFAULT_PROVIDER "0" = some p ∧
        p.check_authorization = none) :
    authz_loop reg true r [] = some ⟨authz_status.AUTHZ_GENERAL_ERROR, r, []⟩ ∧
      authorize_user reg conf r =
        some ⟨HTTP_INTERNAL_SERVER_ERROR, false, r, []⟩ := by
  have hloop : authz_loop reg true r [] =
      some ⟨authz_status.AUTHZ_GENERAL_ERROR, r, []⟩ := by
    rcases hdef with hnone | ⟨p, hp, hpc⟩
    · simp only [authz_loop, hnone]
    · simp only [authz_loop, hp, hpc]
  refine ⟨hloop, ?_⟩
  unfold authorize_user
  rw [hempty]
  simp only [List.isEmpty_nil]
  rw [hloop]
  rfl

/-- Witness for C6: a registry with no providers at all. -/
theorem authorize_user_no_default_error_witness :
    authz_loop regNone true r0 [] =
        some ⟨authz_status.AUTHZ_GENERAL_ERROR, r0, []⟩ ∧
      authorize_user regNone ⟨none, []⟩ r0 =
        some ⟨HTTP_INTERNAL_SERVER_ERROR, false, r0, []⟩ :=
  authorize_user_no_default_error regNone ⟨none, []⟩ r0 rfl (Or.inl rfl)

/-- The two load-time fault messages of add_authz_provider are never
the same string (their lengths differ by a constant). -/
lemma unknown_msg_ne_unsupported_msg (a : String) :
    unknown_provider_msg a ≠ unsupported_provider_msg a := by
  intro h
  have hlen := congrArg String.length h
  simp only [unknown_provider_msg, unsupported_provider_msg,
    String.length_append] at hlen
  rw [show ("Unknown Authz provider: " : String).length = 24 from rfl,
    show ("The " : String).length = 4 from rfl,
    show (" Authz provider is not supported by any of the loaded authorization modules " : String).length = 76 from rfl] at hlen
  omega

/-- Claim C7: add_authz_provider fails with the unknown-provider fault
exactly when the registry has no provider under the binding's name,
fails with the unsupported-capability fault exactly when the resolved
provider lacks check_authorization, and otherwise appends the new
binding at the tail of the scope's list, leaving the existing entries
untouched and in order. -/
theorem add_authz_provider_faults (reg : Registry) (limited : Nat)
    (conf : authz_dir_conf) (arg : String) :
    (add_authz_provider reg limited conf arg =
        Except.error (unknown_provider_msg arg) ↔
      ap_lookup_provider reg AUTHZ_PROVIDER_GROUP arg "0" = none) ∧
    (add_authz_provider reg limited conf arg =
        Except.error (unsupported_provider_msg arg) ↔
      ∃ p, ap_lookup_provider reg AUTHZ_PROVIDER_GROUP arg "0" = some p ∧
        p.check_authorization = none) ∧
    (∀ p, ap_lookup_provider reg AUTHZ_PROVIDER_GROUP arg "0" = some p →
      p.check_authorization.isSome →
      add_authz_provider reg limited conf arg =
        Except.ok { conf with providers :=
          conf.providers ++ [⟨arg, arg, limited, some p⟩] }) := by
  cases hl : ap_lookup_provider reg AUTHZ_PROVIDER_GROUP arg "0" with
  | none =>
      have hadd : add_authz_provider reg limited conf arg =
          Except.error (unknown_provider_msg arg) := by
        simp [add_authz_provider, hl]
      refine ⟨by simp [hadd], ?_, ?_⟩
      · rw [hadd]
        constructor
        · intro h
          exact absurd (Except.error.inj h) (unknown_msg_ne_unsupported_msg arg)
        · rintro ⟨p, hp, -⟩
          exact absurd hp (by simp)
      · intro p hp
        exact absurd hp (by simp)
  | some p =>
      cases hc : p.check_authorization with
      | none =>
          have hadd : add_authz_provider reg limited conf arg =
              Except.error (unsupported_provider_msg arg) := by
            simp [add_authz_provider, hl, hc]
          refine ⟨?_, ?_, ?_⟩
          · rw [hadd]
            constructor
            · intro h
              exact absurd (Except.error.inj h).symm
                (unknown_msg_ne_unsupported_msg arg)
            · intro h
              exact absurd h (by simp)
          · rw [hadd]
            exact iff_of_true rfl ⟨p, rfl, hc⟩
          · intro q hq hqs
            obtain rfl : p = q := Option.some.inj hq
            rw [hc] at hqs
            exact absurd hqs (by simp)
      | some f =>
          have hadd : add_authz_provider reg limited conf arg =
              Except.ok { conf with providers :=
                conf.providers ++ [⟨arg, arg, limited, some p⟩] } := by
            simp [add_authz_provider, hl, hc]
          refine ⟨?_, ?_, ?_⟩
          · rw [hadd]
            constructor
            · intro h
              exact absurd h (by simp)
            · intro h
              exact absurd h (by simp)
          · rw [hadd]
            constructor
            · intro h
              exact absurd h (by simp)
            · rintro ⟨q, hq, hqc⟩
              obtain rfl : p = q := Option.some.inj hq
              rw [hc] at hqc
              exact absurd hqc (by simp)
          · intro q hq hqs
            obtain rfl : p = q := Option.some.inj hq
            exact hadd

/-- Witness for C7: binding the name valid-user against a registry
that resolves it to a provider with a working check appends the new
binding to the (empty) list. -/
theorem add_authz_provider_faults_witness :
    add_authz_provider regAll 5 ⟨none, []⟩ "valid-user" =
      Except.ok ⟨none, [⟨"valid-user", "valid-user", 5, some providerGrant⟩]⟩ :=
  (add_authz_provider_faults regAll 5 ⟨none, []⟩ "valid-user").2.2
    providerGrant rfl rfl

/-- The scan of authz_some_auth_required finds a set method bit exactly
when some binding's mask contains the bit of the request method. -/
lemma some_auth_loop_iff (r : request_rec) :
    ∀ L : List authz_provider_list,
      (some_auth_loop r L = true ↔
        ∃ b ∈ L, b.method_mask &&& (AP_METHOD_BIT <<< r.method_number) ≠ 0)
  | [] => by simp [some_auth_loop]
  | b :: rest => by
      by_cases hm : b.method_mask &&& (AP_METHOD_BIT <<< r.method_number) ≠ 0
      · exact iff_of_true (by simp [some_auth_loop, hm])
          ⟨b, List.mem_cons_self b rest, hm⟩
      · simp [some_auth_loop, hm, some_auth_loop_iff r rest]

/-- The scan of authz_some_auth_required reads nothing but the method
masks: two lists with equal mask sequences scan identically. -/
lemma some_auth_loop_mask_only (r : request_rec) :
    ∀ L1 L2 : List authz_provider_list,
      L1.map authz_provider_list.method_mask =
        L2.map authz_provider_list.method_mask →
      some_auth_loop r L1 = some_auth_loop r L2
  | [], [], _ => rfl
  | [], _ :: _, h => by simp at h
  | _ :: _, [], h => by simp at h
  | a :: L1, b :: L2, h => by
      simp only [List.map_cons, List.cons.injEq] at h
      obtain ⟨h1, h2⟩ := h
      simp only [some_auth_loop, h1]
      by_cases hm : b.method_mask &&& (AP_METHOD_BIT <<< r.method_number) ≠ 0
      · simp [hm]
      · simp [hm, some_auth_loop_mask_only r L1 L2 h2]

/-- Claim C9: authz_some_auth_required is true exactly when at least
one binding's method mask contains the request method's bit, is false
on the empty binding list whatever the method, and depends on nothing
but the mask sequence (in particular it invokes no provider: the
providers' checks do not occur in the computation at all). -/
theorem authz_some_auth_required_spec (conf : authz_dir_conf) (r : request_rec) :
    (authz_some_auth_required conf r = true ↔
      ∃ b ∈ conf.providers,
        b.method_mask &&& (AP_METHOD_BIT <<< r.method_number) ≠ 0) ∧
    (conf.providers = [] → authz_some_auth_required conf r = false) ∧
    (∀ conf2 : authz_dir_conf,
      conf2.providers.map authz_provider_list.method_mask =
        conf.providers.map authz_provider_list.method_mask →
      authz_some_auth_required conf2 r = authz_some_auth_required conf r) := by
  refine ⟨some_auth_loop_iff r conf.providers, ?_, ?_⟩
  · intro h
    unfold authz_some_auth_required
    rw [h]
    rfl
  · intro conf2 hmap
    exact some_auth_loop_mask_only r conf2.providers conf.providers hmap

/-- A binding with method mask 4, bound to the granting provider. -/
def bM1 : authz_provider_list := ⟨"m1", "m1", 4, some providerGrant⟩

/-- A differently named binding with the same method mask 4. -/
def bM2 : authz_provider_list := ⟨"m2", "m2", 4, some providerDeny⟩

/-- Scope config holding exactly bM1. -/
def confM1 : authz_dir_conf := ⟨none, [bM1]⟩

/-- Scope config holding exactly bM2. -/
def confM2 : authz_dir_conf := ⟨none, [bM2]⟩

/-- Witness for C9: the empty list answers false, and two configs that
agree on masks (but in nothing else) answer alike. -/
theorem authz_some_auth_required_spec_witness :
    (authz_some_auth_required ⟨none, []⟩ r0 = false) ∧
      authz_some_auth_required confM2 r0 = authz_some_auth_required confM1 r0 :=
  ⟨(authz_some_auth_required_spec ⟨none, []⟩ r0).2.1 rfl,
   (authz_some_auth_required_spec confM1 r0).2.2 confM2 rfl⟩

/-! Reference description of the evaluation chain, written after the
wording of claim C1, to be compared against the embedded loop. -/

/-- The verdict the binding's provider returns when the loop invokes
it on base request r: the loop overwrites the notes slot with the
provider name before every call, so the provider sees exactly that
request; none when the provider pointer or its check_authorization
pointer is NULL. -/
def check_result (r : request_rec) (b : authz_provider_list) :
    Option authz_status :=
  match b.provider with
  | none => none
  | some p =>
    match p.check_authorization with
    | none => none
    | some check =>
      some (check { r with notes := some b.provider_name }
        b.method_mask b.requirement)

/-- Reference final verdict, following the claim wording: the first
verdict that is not AUTHZ_DENIED wins; when every provider denies the
verdict is AUTHZ_DENIED. The value of the none arm is a placeholder:
the claim theorems use this function only under the hypothesis that
every binding has a usable check. -/
def final_verdict (r : request_rec) :
    List authz_provider_list → authz_status
  | [] => authz_status.AUTHZ_DENIED
  | b :: rest =>
    match check_result r b with
    | none => authz_status.AUTHZ_GENERAL_ERROR
    | some v =>
      if v = authz_status.AUTHZ_DENIED then final_verdict r rest else v

/-- Reference count of invoked providers: every binding up to and
including the first whose verdict is not AUTHZ_DENIED; all of them
when every one denies. -/
def num_invoked (r : request_rec) : List authz_provider_list → Nat
  | [] => 0
  | b :: rest =>
    if check_result r b = some authz_status.AUTHZ_DENIED then
      num_invoked r rest + 1
    else 1

/-- Reference chronological call trace: one event per invoked binding,
in declaration order, stopping after the first non-denying one. -/
def chain_events (r : request_rec) :
    List authz_provider_list → List CallEvent
  | [] => []
  | b :: rest =>
    ⟨b.provider_name, some b.provider_name, none⟩ ::
      (if check_result r b = some authz_status.AUTHZ_DENIED then
        chain_events r rest
      else [])

/-- The verdict of a binding does not depend on the incoming value of
the notes slot: the loop overwrites it before the call. -/
lemma check_result_notes (r : request_rec) (s : Option String)
    (b : authz_provider_list) :
    check_result { r with notes := s } b = check_result r b := rfl

/-- The reference final verdict ignores the incoming notes slot. -/
lemma final_verdict_notes (r : request_rec) (s : Option String) :
    ∀ B : List authz_provider_list,
      final_verdict { r with notes := s } B = final_verdict r B
  | [] => rfl
  | b :: rest => by
      simp only [final_verdict, check_result_notes]
      cases check_result r b with
      | none => rfl
      | some v =>
          by_cases hv : v = authz_status.AUTHZ_DENIED <;>
            simp [hv, final_verdict_notes r s rest]

/-- The reference call trace ignores the incoming notes slot. -/
lemma chain_events_notes (r : request_rec) (s : Option String) :
    ∀ B : List authz_provider_list,
      chain_events { r with notes := s } B = chain_events r B
  | [] => rfl
  | b :: rest => by
      simp only [chain_events, check_result_notes]
      by_cases hv : check_result r b = some authz_status.AUTHZ_DENIED <;>
        simp [hv, chain_events_notes r s rest]

/-- Overwriting the notes slot twice is one overwrite. -/
lemma request_update_notes (r : request_rec) (s1 s2 : Option String) :
    ({ ({ r with notes := s1 }) with notes := s2 } : request_rec) =
      { r with notes := s2 } := rfl

/-- One unfolding step of the loop on a non-empty list (stated so it
can be rewritten exactly once, since the body mentions the loop again
on the structurally smaller tail). -/
lemma authz_loop_cons (reg : Registry) (pe : Bool) (r : request_rec)
    (b : authz_provider_list) (rest : List authz_provider_list) :
    authz_loop reg pe r (b :: rest) =
      match b.provider with
      | none => none
      | some p =>
        match p.check_authorization with
        | none => none
        | some check =>
          let r1 : request_rec := { r with notes := some b.provider_name }
          let v := check r1 b.method_mask b.requirement
          let r2 : request_rec := { r with notes := none }
          let ev : CallEvent := ⟨b.provider_name, r1.notes, r2.notes⟩
          if v ≠ authz_status.AUTHZ_DENIED then some ⟨v, r2, [ev]⟩
          else if pe then some ⟨v, r2, [ev]⟩
          else
            match rest with
            | [] => some ⟨v, r2, [ev]⟩
            | b2 :: rest2 =>
              match authz_loop reg pe r2 (b2 :: rest2) with
              | none => none
              | some lr => some ⟨lr.auth_result, lr.r_final, ev :: lr.calls⟩ := by
  rw [authz_loop.eq_def]

/-- The embedded do/while loop, on a non-empty binding list whose
bindings all carry usable checks, computes exactly the reference
final verdict, leaves the notes slot cleared, and performs exactly
the reference call trace. -/
lemma authz_loop_eq_chain (reg : Registry) :
    ∀ B : List authz_provider_list, B ≠ [] →
      ∀ r : request_rec, (∀ b ∈ B, (check_result r b).isSome) →
      authz_loop reg false r B =
        some ⟨final_verdict r B, { r with notes := none }, chain_events r B⟩
  | [], hne, _, _ => absurd rfl hne
  | b :: rest, _, r, hcap => by
      have hb := hcap b (List.mem_cons_self b rest)
      cases hbp : b.provider with
      | none =>
          rw [show check_result r b = none from by
            simp [check_result, hbp]] at hb
          simp at hb
      | some p =>
          cases hpc : p.check_authorization with
          | none =>
              rw [show check_result r b = none from by
                simp [check_result, hbp, hpc]] at hb
              simp at hb
          | some check =>
              have hcr : check_result r b = some (check
                  { r with notes := some b.provider_name }
                  b.method_mask b.requirement) := by
                simp [check_result, hbp, hpc]
              by_cases hv : check { r with notes := some b.provider_name }
                  b.method_mask b.requirement = authz_status.AUTHZ_DENIED
              · cases rest with
                | nil =>
                    have hfv : final_verdict r [b] =
                        authz_status.AUTHZ_DENIED := by
                      simp [final_verdict, hcr, hv]
                    have hce : chain_events r [b] =
                        [⟨b.provider_name, some b.provider_name, none⟩] := by
                      simp [chain_events, hcr]
                    rw [hfv, hce]
                    simp only [authz_loop, hbp, hpc]
                    simp [hv]
                | cons b2 rest2 =>
                    have hcap2 : ∀ x ∈ b2 :: rest2,
                        (check_result { r with notes := none } x).isSome := by
                      intro x hx
                      rw [check_result_notes]
                      exact hcap x (List.mem_cons_of_mem b hx)
                    have hrec := authz_loop_eq_chain reg (b2 :: rest2)
                      (List.cons_ne_nil b2 rest2) { r with notes := none } hcap2
                    have hfv : final_verdict r (b :: b2 :: rest2) =
                        final_verdict r (b2 :: rest2) := by
                      simp [final_verdict, hcr, hv]
                    have hce : chain_events r (b :: b2 :: rest2) =
                        ⟨b.provider_name, some b.provider_name, none⟩ ::
                          chain_events r (b2 :: rest2) := by
                      simp [chain_events, hcr, hv]
                    rw [hfv, hce, authz_loop_cons]
                    simp only [hbp, hpc]
                    rw [hrec]
                    simp [hv, final_verdict_notes, chain_events_notes,
                      request_update_notes]
              · have hfv : final_verdict r (b :: rest) = check
                    { r with notes := some b.provider_name }
                    b.method_mask b.requirement := by
                  simp [final_verdict, hcr, hv]
                have hce : chain_events r (b :: rest) =
                    [⟨b.provider_name, some b.provider_name, none⟩] := by
                  simp [chain_events, hcr, hv]
                rw [hfv, hce, authz_loop_cons]
                simp only [hbp, hpc]
                simp [hv]

/-- The reference call trace names exactly the initial segment of the
declaration-ordered binding list of length num_invoked. -/
lemma chain_events_names (r : request_rec) :
    ∀ B : List authz_provider_list,
      (chain_events r B).map CallEvent.provider_name =
        (B.take (num_invoked r B)).map authz_provider_list.provider_name
  | [] => rfl
  | b :: rest => by
      by_cases h : check_result r b = some authz_status.AUTHZ_DENIED
      · simp [chain_events, num_invoked, h, List.take_succ_cons,
          chain_events_names r rest]
      · simp [chain_events, num_invoked, h, List.take_succ_cons]

/-- The reference final verdict is AUTHZ_DENIED exactly when the whole
list was invoked and every invocation denied. -/
lemma final_verdict_denied_iff (r : request_rec) :
    ∀ B : List authz_provider_list,
      (∀ b ∈ B, (check_result r b).isSome) →
      (final_verdict r B = authz_status.AUTHZ_DENIED ↔
        num_invoked r B = B.length ∧
          ∀ b ∈ B, check_result r b = some authz_status.AUTHZ_DENIED)
  | [], _ => by simp [final_verdict, num_invoked]
  | b :: rest, hcap => by
      have hb := hcap b (List.mem_cons_self b rest)
      obtain ⟨v, hv⟩ := Option.isSome_iff_exists.mp hb
      have ih := final_verdict_denied_iff r rest
        (fun x hx => hcap x (List.mem_cons_of_mem b hx))
      by_cases hd : v = authz_status.AUTHZ_DENIED
      · subst hd
        simp only [final_verdict, num_invoked, hv, List.length_cons,
          List.forall_mem_cons, if_true, eq_self_iff_true, true_and]
        rw [ih]
        constructor <;> rintro ⟨h1, h2⟩ <;> exact ⟨by omega, h2⟩
      · have hne : ¬(check_result r b = some authz_status.AUTHZ_DENIED) := by
          rw [hv]
          simp [hd]
        simp only [final_verdict, num_invoked, hv, if_neg hd, if_neg hne,
          List.forall_mem_cons]
        simp [hd, hne]

/-- Claim C1: on every non-empty binding list (whose published
bindings carry usable checks, as add_authz_provider guarantees) and
every request, the loop invokes the providers of exactly the initial
segment of the declaration-ordered list of length num_invoked —
never skipping a binding for any reason, the method included — stops
at the first binding whose verdict is not Denied, makes that verdict
final, and yields Denied exactly when all bindings were invoked and
every one denied; authorize_user enters the loop this way for every
config carrying that list. -/
theorem authorize_user_chain_order (reg : Registry) (r : request_rec)
    (B : List authz_provider_list) (hne : B ≠ [])
    (hcap : ∀ b ∈ B, (check_result r b).isSome) :
    authz_loop reg false r B =
        some ⟨final_verdict r B, { r with notes := none }, chain_events r B⟩ ∧
      (chain_events r B).map CallEvent.provider_name =
        (B.take (num_invoked r B)).map authz_provider_list.provider_name ∧
      (final_verdict r B = authz_status.AUTHZ_DENIED ↔
        num_invoked r B = B.length ∧
          ∀ b ∈ B, check_result r b = some authz_status.AUTHZ_DENIED) ∧
      (∀ a : Option Nat, authorize_user reg ⟨a, B⟩ r =
        some (authz_decision ⟨final_verdict r B, { r with notes := none },
          chain_events r B⟩)) := by
  refine ⟨authz_loop_eq_chain reg B hne r hcap, chain_events_names r B,
    final_verdict_denied_iff r B hcap, ?_⟩
  intro a
  obtain ⟨b, rest, rfl⟩ : ∃ b rest, B = b :: rest := by
    cases B with
    | nil => exact absurd rfl hne
    | cons b rest => exact ⟨b, rest, rfl⟩
  unfold authorize_user
  rw [show (({ ap_requires := a, providers := b :: rest } :
      authz_dir_conf)).providers = b :: rest from rfl]
  rw [show (b :: rest).isEmpty = false from rfl]
  rw [authz_loop_eq_chain reg (b :: rest) (List.cons_ne_nil b rest) r hcap]
  rfl

/-- A binding that denies, first in the witness chain. -/
def bD1 : authz_provider_list := ⟨"d1", "d1", 1, some providerDeny⟩

/-- A binding that grants, second in the witness chain. -/
def bG2 : authz_provider_list := ⟨"g2", "g2", 1, some providerGrant⟩

/-- Witness for C1: the two-binding chain deny-then-grant. -/
theorem authorize_user_chain_order_witness :
    authz_loop regNone false r0 [bD1, bG2] =
      some ⟨final_verdict r0 [bD1, bG2], { r0 with notes := none },
        chain_events r0 [bD1, bG2]⟩ :=
  (authorize_user_chain_order regNone r0 [bD1, bG2]
    (List.cons_ne_nil bD1 [bG2])
    (by
      intro b hb
      rcases List.mem_cons.mp hb with rfl | hb2
      · exact rfl
      rcases List.mem_cons.mp hb2 with rfl | hb3
      · exact rfl
      exact absurd hb3 (List.not_mem_nil b))).1

/-- The decision mapping passes the call trace through untouched. -/
lemma authz_decision_calls (lr : LoopResult) :
    (authz_decision lr).calls = lr.calls := by
  rcases lr with ⟨v, rf, cs⟩
  cases v <;> rfl

/-- Every call event produced by the loop shows the invoked provider's
name in the notes slot during the call and a cleared slot right after
the call returns. -/
lemma authz_loop_slots (reg : Registry) (pe : Bool) :
    ∀ (B : List authz_provider_list) (r : request_rec) (lr : LoopResult),
      authz_loop reg pe r B = some lr →
      ∀ ev ∈ lr.calls,
        ev.slotDuring = some ev.provider_name ∧ ev.slotAfter = none
  | [], r, lr, h => by
      intro ev hev
      cases hl : ap_lookup_provider reg AUTHZ_PROVIDER_GROUP
          AUTHZ_DEFAULT_PROVIDER "0" with
      | none =>
          simp only [authz_loop, hl] at h
          obtain rfl := Option.some.inj h
          simp at hev
      | some p =>
          cases hpc : p.check_authorization with
          | none =>
              simp only [authz_loop, hl, hpc] at h
              obtain rfl := Option.some.inj h
              simp at hev
          | some f =>
              simp only [authz_loop, hl, hpc] at h
              exact absurd h (by simp)
  | b :: rest, r, lr, h => by
      intro ev hev
      rw [authz_loop_cons] at h
      cases hbp : b.provider with
      | none =>
          simp only [hbp] at h
          exact absurd h (by simp)
      | some p =>
          simp only [hbp] at h
          cases hpc : p.check_authorization with
          | none =>
              simp only [hpc] at h
              exact absurd h (by simp)
          | some check =>
              simp only [hpc] at h
              by_cases hv : check { r with notes := some b.provider_name }
                  b.method_mask b.requirement = authz_status.AUTHZ_DENIED
              · rw [if_neg (by simp [hv])] at h
                cases pe with
                | true =>
                    rw [if_pos rfl] at h
                    obtain rfl := Option.some.inj h
                    rw [List.mem_singleton.mp hev]
                    exact ⟨rfl, rfl⟩
                | false =>
                    rw [if_neg (by simp)] at h
                    cases rest with
                    | nil =>
                        obtain rfl := Option.some.inj h
                        rw [List.mem_singleton.mp hev]
                        exact ⟨rfl, rfl⟩
                    | cons b2 rest2 =>
                        dsimp only at h
                        cases hr : authz_loop reg false
                            { r with notes := none } (b2 :: rest2) with
                        | none =>
                            rw [hr] at h
                            exact absurd h (by simp)
                        | some lr2 =>
                            rw [hr] at h
                            simp only at h
                            obtain rfl := Option.some.inj h
                            rcases List.mem_cons.mp hev with rfl | htail
                            · exact ⟨rfl, rfl⟩
                            · exact authz_loop_slots reg false (b2 :: rest2)
                                { r with notes := none } lr2 hr ev htail
              · rw [if_pos hv] at h
                obtain rfl := Option.some.inj h
                rw [List.mem_singleton.mp hev]
                exact ⟨rfl, rfl⟩

/-- On a non-empty list the loop never reads the incoming notes slot:
it overwrites the slot before the first call. -/
lemma authz_loop_cons_notes (reg : Registry) (pe : Bool)
    (b : authz_provider_list) (rest : List authz_provider_list)
    (r : request_rec) (s1 s2 : Option String) :
    authz_loop reg pe { r with notes := s1 } (b :: rest) =
      authz_loop reg pe { r with notes := s2 } (b :: rest) := by
  rw [authz_loop_cons, authz_loop_cons]

/-- Two authorize_user runs that differ only in the incoming contents
of the notes slot return the same code, the same challenge decision
and the same call trace. -/
lemma authorize_user_notes_independent (reg : Registry)
    (conf : authz_dir_conf) (r : request_rec) (s1 s2 : Option String) :
    (authorize_user reg conf { r with notes := s1 }).map
        (fun o => (o.return_code, o.challenged, o.calls)) =
      (authorize_user reg conf { r with notes := s2 }).map
        (fun o => (o.return_code, o.challenged, o.calls)) := by
  cases hB : conf.providers with
  | nil =>
      unfold authorize_user
      rw [hB]
      cases hl : ap_lookup_provider reg AUTHZ_PROVIDER_GROUP
          AUTHZ_DEFAULT_PROVIDER "0" with
      | none =>
          simp [authz_loop, authz_decision, hl,
            HTTP_INTERNAL_SERVER_ERROR, HTTP_UNAUTHORIZED]
      | some p =>
          cases hpc : p.check_authorization with
          | none =>
              simp [authz_loop, authz_decision, hl, hpc,
                HTTP_INTERNAL_SERVER_ERROR, HTTP_UNAUTHORIZED]
          | some f => simp [authz_loop, hl, hpc]
  | cons b rest =>
      unfold authorize_user
      rw [hB, authz_loop_cons_notes reg _ b rest r s1 s2]

/-- Claim C10: in every completed run, during each provider call the
diagnostic notes slot holds exactly the invoked provider's name and
is cleared immediately after the call returns; and two runs that
differ only in the slot's incoming contents agree on the returned
code, the challenge decision and the full call trace — the decision
logic never reads the slot. -/
theorem authorize_user_note_slot_frame (reg : Registry)
    (conf : authz_dir_conf) (r : request_rec) (o : AuthzOutcome)
    (ev : CallEvent) (s1 s2 : Option String)
    (h : authorize_user reg conf r = some o) (hev : ev ∈ o.calls) :
    (ev.slotDuring = some ev.provider_name ∧ ev.slotAfter = none) ∧
      (authorize_user reg conf { r with notes := s1 }).map
          (fun o2 => (o2.return_code, o2.challenged, o2.calls)) =
        (authorize_user reg conf { r with notes := s2 }).map
          (fun o2 => (o2.return_code, o2.challenged, o2.calls)) := by
  refine ⟨?_, authorize_user_notes_independent reg conf r s1 s2⟩
  unfold authorize_user at h
  cases hl : authz_loop reg conf.providers.isEmpty r conf.providers with
  | none =>
      rw [hl] at h
      exact absurd h (by simp)
  | some lr =>
      rw [hl] at h
      rw [Option.map_some'] at h
      obtain rfl := Option.some.inj h
      rw [authz_decision_calls] at hev
      exact authz_loop_slots reg conf.providers.isEmpty conf.providers r
        lr hl ev hev

/-- A granting one-binding chain for the C10 witness. -/
def bGrantW : authz_provider_list :=
  ⟨"p-grant", "valid-user", 7, some providerGrant⟩

/-- Scope config holding exactly bGrantW. -/
def confOne : authz_dir_conf := ⟨none, [bGrantW]⟩

/-- The single call event of the witness run. -/
def evW : CallEvent := ⟨"p-grant", some "p-grant", none⟩

/-- The outcome of the witness run. -/
def oW : AuthzOutcome := ⟨OK, false, { r0 with notes := none }, [evW]⟩

/-- Witness for C10: a one-binding granting run, compared against the
same run started with a stale note in the slot. -/
theorem authorize_user_note_slot_frame_witness :
    (evW.slotDuring = some evW.provider_name ∧ evW.slotAfter = none) ∧
      (authorize_user regNone confOne { r0 with notes := some "stale" }).map
          (fun o2 => (o2.return_code, o2.challenged, o2.calls)) =
        (authorize_user regNone confOne { r0 with notes := none }).map
          (fun o2 => (o2.return_code, o2.challenged, o2.calls)) :=
  authorize_user_note_slot_frame regNone confOne r0 oW evW
    (some "stale") none rfl (List.mem_singleton.mpr rfl)

end ModAuthz
